import Mathlib

/-!
# Verification of the miniDB storage engine (`miniDB/database.py`)

This file embeds the `Database` class of `miniDB/database.py` shallowly in
Lean and proves/refutes the frozen claims about it.

Modelling conventions:
* A table row is `List (Option V)`; `none` in every cell is a tombstone.
* The four meta tables of the source (`meta_length`, `meta_locks`,
  `meta_insert_stack`, `meta_indexes`) are dedicated fields of `Store`,
  each a list of optional tuples (`none` = tombstoned row), matching the
  row layout declared in `Database.__init__`.
* Durable state (the pickle artifacts under `savedir`) is the `persisted`
  field of `DBState`; the in-process `self.tables` dict is `memory`.
  `load_database` copies persisted tables into memory (entries present
  only in memory survive, exactly as `dict.update` does in the source);
  `save_database` dumps every in-memory table; `_save_locks` dumps only
  `meta_locks`.
* The caller's `os.getpid()` is an explicit `pid : Nat` argument.
* Python exceptions are the `.error` branch of `Except Err`; the `Err`
  constructors name the exception raised by the source (`locked` carries
  the owner pid printed in the message).
* The repository files `table.py`, `btree.py`, `extendible_hashing.py` and
  `joins.py` are not under `src/`; every definition standing in for them is
  marked `Modelled from the spec:` in its doc comment and follows the
  spec's wording only.  Statistics collection and CSV import/export are
  external collaborators per spec section 1 and are not part of the state.
-/

set_option linter.unusedVariables false

namespace MiniDB

/-- Exceptions raised by `database.py`; `locked` records the owner pid that the
message `Table "t" is locked by process with pid=p` names. -/
inductive Err where
  | locked (table : String) (pid : Nat)
  | notInDb (table : String)
  | schemaMismatch
  | constraintViolation
  | indexUnavailable
  | unboundLocal
  | notImplemented
  | keyError
  | indexError
  | typeError
  | badIndexType
  | noKeyColumns
  | notKeyColumn
  | dupIndexName
  | dupIndexColumn
deriving DecidableEq, Repr

/-- A stored row: one optional value per column (`none` = empty cell). -/
abbrev Row (V : Type) := List (Option V)

/-- `table_name[:4]=='meta'`, the source's test for internal tables. -/
def isMeta (t : String) : Bool := t.take 4 == "meta"

/-- Modelled from the spec: the `Table` of the repository's missing
`table.py` (spec section 3): name, ordered column names and types, optional
primary key, optional set of unique columns, and the dense row sequence. -/
structure Table (V : Type) where
  name : String
  column_names : List String
  column_types : List String
  pk : Option String
  unique_columns : Option (List String)
  data : List (Row V)
deriving DecidableEq, Repr

/-- Modelled from the spec: `pk_idx` is the position of the primary-key
column among the column names, `none` when there is no primary key. -/
def Table.pk_idx {V : Type} (t : Table V) : Option Nat :=
  t.pk.bind (fun p => t.column_names.indexOf? p)

/-- A row is a tombstone iff every value is empty (spec section 3). -/
def nonTombstone {V : Type} (r : Row V) : Bool := r.any Option.isSome

section TableOps

variable {V : Type} [DecidableEq V]

/-- Column positions carrying a uniqueness constraint: the primary key and
every declared unique column (spec section 3, invariants). -/
def keyCols (t : Table V) : List Nat :=
  (match t.pk with
   | some p => (t.column_names.indexOf? p).toList
   | none => []) ++
  (match t.unique_columns with
   | some us => us.filterMap t.column_names.indexOf?
   | none => [])

/-- Does some non-tombstone row already carry value `v` in column `ci`? -/
def colDup (t : Table V) (ci : Nat) (v : Option V) : Bool :=
  v.isSome && t.data.any (fun r => nonTombstone r && r.getD ci none == v)

/-- Modelled from the spec: `Table._insert` of the missing `table.py`
(spec section 4.1): reject arity errors with SchemaMismatch and primary-key /
unique duplicates against non-tombstone rows with ConstraintViolation; then
overwrite the tombstone at the top (last element) of the free-position stack
if one exists, else append.  No partial mutation on failure. -/
def tableInsert (t : Table V) (row : Row V) (stack : List Nat) :
    Except Err (Table V) :=
  if row.length ≠ t.column_names.length then .error .schemaMismatch
  else if (keyCols t).any (fun ci => colDup t ci (row.getD ci none)) then
    .error .constraintViolation
  else
    match stack.getLast? with
    | some p => .ok { t with data := t.data.set p row }
    | none => .ok { t with data := t.data ++ [row] }

/-- Modelled from the spec: `Table._delete_where` of the missing `table.py`
(spec section 4.1): overwrite every matching row with a tombstone and return
the freed positions. -/
def tableDeleteWhere (t : Table V) (pred : Row V → Bool) :
    Table V × List Nat :=
  ({ t with data := t.data.map (fun r =>
      if pred r then List.replicate t.column_names.length none else r) },
   t.data.enum.filterMap (fun p => if pred p.2 then some p.1 else none))

/-- Modelled from the spec: the row-by-row loop of `Table._update_rows`
(spec sections 4.1 and 7): write `value` into column `ci` of every matching
non-tombstone row, abort on the first uniqueness violation leaving the rows
already visited mutated. -/
def updateRowsGo (ci : Nat) (isKey : Bool) (value : V)
    (pred : Row V → Bool) (done : List (Row V)) :
    List (Row V) → List (Row V) × Option Err
  | [] => (done, none)
  | r :: rest =>
    if pred r && nonTombstone r then
      if isKey && ((done ++ rest).any (fun r2 =>
          nonTombstone r2 && r2.getD ci none == some value)) then
        (done ++ r :: rest, some .constraintViolation)
      else updateRowsGo ci isKey value pred (done ++ [r.set ci (some value)]) rest
    else updateRowsGo ci isKey value pred (done ++ [r]) rest

/-- Modelled from the spec: `Table._update_rows` of the missing `table.py`.
Returns the (possibly partially mutated) table and the first error, if any. -/
def tableUpdateRows (t : Table V) (value : V) (col : String)
    (pred : Row V → Bool) : Table V × Option Err :=
  match t.column_names.indexOf? col with
  | none => (t, some .keyError)
  | some ci =>
    let res := updateRowsGo ci ((keyCols t).contains ci) value pred [] t.data
    ({ t with data := res.1 }, res.2)

/-- Modelled from the spec: `Table._cast_column` of the missing `table.py`
(spec section 4.1): convert every non-empty value of the column, failing with
SchemaMismatch and performing no conversion at all if any single value cannot
convert.  `conv` is the conversion for the target type. -/
def tableCastColumn (t : Table V) (col : String) (conv : V → Option V) :
    Except Err (Table V) :=
  match t.column_names.indexOf? col with
  | none => .error .keyError
  | some ci =>
    if t.data.all (fun r =>
        match r.getD ci none with
        | none => true
        | some v => (conv v).isSome) then
      .ok { t with data := t.data.map (fun r =>
        r.set ci ((r.getD ci none).bind conv)) }
    else .error .schemaMismatch

/-- Modelled from the spec: `Table._sort` of the missing `table.py`
(spec section 4.1): logically reorder the rows by the named column; `le` is
the order on column values, empty cells sort first. -/
def tableSort (t : Table V) (col : String) (asc : Bool)
    (le : V → V → Bool) : Table V :=
  match t.column_names.indexOf? col with
  | none => t
  | some ci =>
    let rowLe : Row V → Row V → Bool := fun a b =>
      match a.getD ci none, b.getD ci none with
      | none, _ => true
      | some _, none => false
      | some x, some y => le x y
    let sorted := t.data.mergeSort rowLe
    { t with data := if asc then sorted else sorted.reverse }

end TableOps

/-! ## The meta tables

Rows of the four meta tables, with `none` standing for a tombstoned row.
The helpers below are `Table._select_where` / `_insert` / `_delete_where` /
`_update_rows` (missing `table.py`, modelled from the spec) specialised to
the conditions `database.py` actually issues: an equality on the first
column.  A tombstoned row never matches such a condition because all of its
cells are empty. -/

/-- A live `meta_locks` row: `(table_name, pid, mode)`. -/
abbrev LockRow := String × Nat × String

/-- Modelled from the spec:
`meta_locks._select_where('pid', 'table_name=t').data[0][0]` — the pid of
the first live lock row for `t`, if any. -/
def selectLockPid (locks : List (Option LockRow)) (t : String) : Option Nat :=
  ((locks.filterMap id).find? (fun r => r.1 == t)).map (fun r => r.2.1)

/-- Modelled from the spec: `meta_locks._insert([t, pid, mode])` appends a
live row (no free-position stack is passed for meta tables). -/
def insertLock (locks : List (Option LockRow)) (t : String) (pid : Nat)
    (mode : String) : List (Option LockRow) :=
  locks ++ [some (t, pid, mode)]

/-- Modelled from the spec: `meta_locks._delete_where('table_name=t')`
tombstones every live row for `t`. -/
def deleteLocksFor (locks : List (Option LockRow)) (t : String) :
    List (Option LockRow) :=
  locks.map (fun r =>
    match r with
    | some x => if x.1 == t then none else some x
    | none => none)

/-- A live `meta_insert_stack` row: `(table_name, indexes)`. -/
abbrev StackRow := String × List Nat

/-- Modelled from the spec: the `indexes` cell of the first live
`meta_insert_stack` row for `t` (`Database._get_insert_stack_for_table`
raises IndexError when absent, hence the `Option`). -/
def getInsertStack (ms : List (Option StackRow)) (t : String) :
    Option (List Nat) :=
  ((ms.filterMap id).find? (fun r => r.1 == t)).map (fun r => r.2)

/-- Modelled from the spec:
`meta_insert_stack._update_rows(new_stack, 'indexes', 'table_name=t')`. -/
def setInsertStack (ms : List (Option StackRow)) (t : String)
    (st : List Nat) : List (Option StackRow) :=
  ms.map (fun r =>
    match r with
    | some x => if x.1 == t then some (x.1, st) else some x
    | none => none)

/-- Modelled from the spec: `meta_insert_stack._delete_where('table_name=t')`. -/
def deleteStackFor (ms : List (Option StackRow)) (t : String) :
    List (Option StackRow) :=
  ms.map (fun r =>
    match r with
    | some x => if x.1 == t then none else some x
    | none => none)

/-- A live `meta_length` row: `(table_name, no_of_rows)`. -/
abbrev LengthRow := String × Nat

/-- Is there a live `meta_length` row for `t`? -/
def hasLengthRow (ml : List (Option LengthRow)) (t : String) : Bool :=
  (ml.filterMap id).any (fun r => r.1 == t)

/-- Modelled from the spec:
`meta_length._update_rows(n, 'no_of_rows', 'table_name=t')`. -/
def setLengthRow (ml : List (Option LengthRow)) (t : String) (n : Nat) :
    List (Option LengthRow) :=
  ml.map (fun r =>
    match r with
    | some x => if x.1 == t then some (x.1, n) else some x
    | none => none)

/-- Modelled from the spec: `meta_length._delete_where('table_name=t')`. -/
def deleteLengthFor (ml : List (Option LengthRow)) (t : String) :
    List (Option LengthRow) :=
  ml.map (fun r =>
    match r with
    | some x => if x.1 == t then none else some x
    | none => none)

/-- A live `meta_indexes` row:
`(table_name, indexed_column, index_name, index_type)`. -/
abbrev IndexRow := String × String × String × String

/-- Modelled from the spec: `meta_indexes._delete_where('index_name=i')`. -/
def deleteIndexRowsFor (mi : List (Option IndexRow)) (iname : String) :
    List (Option IndexRow) :=
  mi.map (fun r =>
    match r with
    | some x => if x.2.2.1 == iname then none else some x
    | none => none)

/-! ## Database state -/

/-- The `self.tables` dict (and, for `persisted`, the set of pickled
artifacts): the user tables as an association list in insertion order, plus
the four meta tables. -/
structure Store (V : Type) where
  userTables : List (String × Table V)
  meta_length : List (Option LengthRow)
  meta_locks : List (Option LockRow)
  meta_insert_stack : List (Option StackRow)
  meta_indexes : List (Option IndexRow)
deriving DecidableEq, Repr

/-- The durable/in-process pair plus the index artifacts saved under
`savedir/indexes` (an index artifact is named `meta_<iname>_index` and holds
its (key, position) entries, see `construct_index_entries`). -/
structure DBState (V : Type) where
  persisted : Store V
  memory : Store V
  savedIndexes : List (String × List (V × Nat))
deriving DecidableEq, Repr

section StoreOps

variable {V : Type} [DecidableEq V]

/-- First table bound to `t` in an association list. -/
def lookupTable (ts : List (String × Table V)) (t : String) :
    Option (Table V) :=
  (ts.find? (fun p => p.1 == t)).map (fun p => p.2)

/-- Overwrite the binding of `t` (every binding of `t`, which is unique in
an insertion-ordered dict). -/
def setTable (ts : List (String × Table V)) (t : String) (tb : Table V) :
    List (String × Table V) :=
  ts.map (fun p => if p.1 == t then (t, tb) else p)

/-- `self.tables.update({name: tb})`: overwrite in place, else append. -/
def upsertTable (ts : List (String × Table V)) (t : String) (tb : Table V) :
    List (String × Table V) :=
  if ts.any (fun p => p.1 == t) then setTable ts t tb else ts ++ [(t, tb)]

/-- `self.tables.pop(t)` / `os.remove` of the table artifact. -/
def removeTable (ts : List (String × Table V)) (t : String) :
    List (String × Table V) :=
  ts.filter (fun p => ¬ p.1 == t)

/-- The user-table names. -/
def tableNames (ts : List (String × Table V)) : List String :=
  ts.map (fun p => p.1)

/-- `self.tables.keys()`: the user tables plus the four meta tables. -/
def keysOf (st : Store V) : List String :=
  tableNames st.userTables ++
    ["meta_length", "meta_locks", "meta_insert_stack", "meta_indexes"]

/-- `load_database` on the user tables: `dict.update` per persisted artifact,
so persisted entries overwrite in-memory ones and fresh persisted entries are
appended, while entries living only in memory survive. -/
def mergeTables (mem per : List (String × Table V)) :
    List (String × Table V) :=
  mem.map (fun p =>
    match lookupTable per p.1 with
    | some tb => (p.1, tb)
    | none => p) ++
  per.filter (fun q => ¬ mem.any (fun p => p.1 == q.1))

/-- Effect of `Database.load_database` on the tables dict: every persisted
table (meta tables included, they are pickled like any other) replaces the
in-memory copy. -/
def loadStore (per mem : Store V) : Store V :=
  { userTables := mergeTables mem.userTables per.userTables
    meta_length := per.meta_length
    meta_locks := per.meta_locks
    meta_insert_stack := per.meta_insert_stack
    meta_indexes := per.meta_indexes }

/-- `Database.load_database`. -/
def load_database (s : DBState V) : DBState V :=
  { s with memory := loadStore s.persisted s.memory }

/-- `Database.save_database`: pickle every in-memory table. -/
def save_database (s : DBState V) : DBState V :=
  { s with persisted := s.memory }

/-- `Database._save_locks`: pickle only `meta_locks`. -/
def save_locks (s : DBState V) : DBState V :=
  { s with persisted := { s.persisted with meta_locks := s.memory.meta_locks } }

end StoreOps

/-! ## The lock manager (`lock_table`, `unlock_table`, `is_locked`) -/

section LockOps

variable {V : Type} [DecidableEq V]

/-- `Database.lock_table` (database.py lines 550-578).  Returns `.ok none`
for meta tables and unknown names (the bare `return`), `.ok (some false)`
when the caller already owns the lock, `.ok (some true)` after inserting and
persisting a fresh lock row, and `Locked(owner)` when another pid owns it.
The reload of `meta_locks` from its artifact happens before the check. -/
def lock_table (s : DBState V) (pid : Nat) (t : String) (mode : String) :
    DBState V × Except Err (Option Bool) :=
  if isMeta t || ¬ (keysOf s.memory).contains t then (s, .ok none)
  else
    let s1 : DBState V :=
      { s with memory := { s.memory with meta_locks := s.persisted.meta_locks } }
    match selectLockPid s1.memory.meta_locks t with
    | some p =>
      if p ≠ pid then (s1, .error (.locked t p)) else (s1, .ok (some false))
    | none =>
      if mode == "x" then
        let s2 : DBState V :=
          { s1 with memory := { s1.memory with
              meta_locks := insertLock s1.memory.meta_locks t pid mode } }
        (save_locks s2, .ok (some true))
      else (s1, .error .notImplemented)

/-- Shared tail of `Database.unlock_table`: tombstone the lock rows of `t`
in memory and persist `meta_locks`. -/
def unlockRemove (s : DBState V) (t : String) : DBState V :=
  save_locks
    { s with memory := { s.memory with
        meta_locks := deleteLocksFor s.memory.meta_locks t } }

/-- `Database.unlock_table` (database.py lines 581-601).  Note: unlike
`lock_table`, it does not reload `meta_locks` first. -/
def unlock_table (s : DBState V) (pid : Nat) (t : String) (force : Bool) :
    DBState V × Except Err Unit :=
  if ¬ (keysOf s.memory).contains t then (s, .error (.notInDb t))
  else if ¬ force then
    match selectLockPid s.memory.meta_locks t with
    | some p =>
      if p ≠ pid then (s, .error (.locked t p))
      else (unlockRemove s t, .ok ())
    | none => (unlockRemove s t, .ok ())
  else (unlockRemove s t, .ok ())

/-- `Database.is_locked` (database.py lines 603-623).  Returns `false` for
meta tables; otherwise reloads `meta_locks` and raises `Locked(owner)` when
a live row owned by a different pid exists; in every non-raising case the
returned value is `false`. -/
def is_locked (s : DBState V) (pid : Nat) (t : String) :
    DBState V × Except Err Bool :=
  if isMeta t then (s, .ok false)
  else
    let s1 : DBState V :=
      { s with memory := { s.memory with meta_locks := s.persisted.meta_locks } }
    match selectLockPid s1.memory.meta_locks t with
    | some p =>
      if p ≠ pid then (s1, .error (.locked t p)) else (s1, .ok false)
    | none => (s1, .ok false)

end LockOps

/-! ## Meta bookkeeping (`_update`) and the table functions -/

section DbOps

variable {V : Type} [DecidableEq V]

/-- Rows that contain data (`any(row)` in `_update_meta_length`; the model
treats every stored value as truthy, which the claims do not depend on). -/
def countNonTombstone (t : Table V) : Nat :=
  (t.data.filter nonTombstone).length

/-- `Database._update_meta_length`: walk the tables dict in order, skip meta
tables, add a `(name, 0)` row for unseen tables, then write the live row
count. -/
def updateMetaLength (tables : List (String × Table V))
    (ml : List (Option LengthRow)) : List (Option LengthRow) :=
  tables.foldl
    (fun ml p =>
      if isMeta p.1 then ml
      else
        let ml1 := if hasLengthRow ml p.1 then ml else ml ++ [some (p.1, 0)]
        setLengthRow ml1 p.1 (countNonTombstone p.2))
    ml

/-- Is there a live `meta_insert_stack` row for `t`? -/
def hasStackRow (ms : List (Option StackRow)) (t : String) : Bool :=
  (ms.filterMap id).any (fun r => r.1 == t)

/-- `Database._update_meta_insert_stack`: add an empty-stack row for every
user table not yet recorded. -/
def updateMetaInsertStack (tables : List (String × Table V))
    (ms : List (Option StackRow)) : List (Option StackRow) :=
  tables.foldl
    (fun ms p =>
      if isMeta p.1 then ms
      else if hasStackRow ms p.1 then ms
      else ms ++ [some (p.1, [])])
    ms

/-- `Database._update`: refresh `meta_length` then `meta_insert_stack`. -/
def updateMeta (s : DBState V) : DBState V :=
  { s with memory := { s.memory with
      meta_length := updateMetaLength s.memory.userTables s.memory.meta_length
      meta_insert_stack :=
        updateMetaInsertStack s.memory.userTables s.memory.meta_insert_stack } }

/-- `Database.create_table` (database.py lines 107-137).  The source does
*not* call `load_database` first; it installs the fresh empty table in the
in-memory dict, refreshes the meta tables and saves everything.  (The
statistics refresh touches only the external statistics collaborator.) -/
def create_table (s : DBState V) (name : String) (cols types : List String)
    (pk : Option String) (uniqs : Option (List String)) : DBState V :=
  let tb : Table V :=
    { name := name, column_names := cols, column_types := types,
      pk := pk, unique_columns := uniqs, data := [] }
  let s1 : DBState V :=
    { s with memory := { s.memory with
        userTables := upsertTable s.memory.userTables name tb } }
  save_database (updateMeta s1)

/-- `Database.insert_into` (database.py lines 267-295): load, lock, fetch the
insert stack (IndexError when the table has no stack row), run
`Table._insert`; on failure unlock (when this call acquired the lock) and
re-raise; on success pop the used stack slot, unlock if acquired, refresh
meta tables and save everything.  (The comma-splitting of `row_str` is
textual input glue; the row arrives already split here.) -/
def insert_into (s : DBState V) (pid : Nat) (t : String) (row : Row V) :
    DBState V × Except Err Unit :=
  let s0 := load_database s
  match lock_table s0 pid t "x" with
  | (s1, .error e) => (s1, .error e)
  | (s1, .ok own) =>
    match getInsertStack s1.memory.meta_insert_stack t with
    | none => (s1, .error .indexError)
    | some stack =>
      match (match lookupTable s1.memory.userTables t with
             | none => Except.error Err.keyError
             | some tb => tableInsert tb row stack) with
      | .error e =>
        if own == some true then
          match unlock_table s1 pid t false with
          | (s2, .error e2) => (s2, .error e2)
          | (s2, .ok _) => (s2, .error e)
        else (s1, .error e)
      | .ok tb2 =>
        let s2 : DBState V :=
          { s1 with memory := { s1.memory with
              userTables := setTable s1.memory.userTables t tb2
              meta_insert_stack :=
                setInsertStack s1.memory.meta_insert_stack t stack.dropLast } }
        match (if own == some true then unlock_table s2 pid t false
               else (s2, .ok ())) with
        | (s3, .error e) => (s3, .error e)
        | (s3, .ok _) => (save_database (updateMeta s3), .ok ())

/-- `Database.delete_from` (database.py lines 318-338) on a user table:
load, lock, tombstone the matching rows, unlock if acquired, refresh meta
tables and save; then, the table not being a meta table, push the freed
positions onto its insert stack (`_add_to_insert_stack`) and save again. -/
def delete_from (s : DBState V) (pid : Nat) (t : String)
    (pred : Row V → Bool) : DBState V × Except Err Unit :=
  let s0 := load_database s
  match lock_table s0 pid t "x" with
  | (s1, .error e) => (s1, .error e)
  | (s1, .ok own) =>
    match lookupTable s1.memory.userTables t with
    | none => (s1, .error .keyError)
    | some tb =>
      let del := tableDeleteWhere tb pred
      let s2 : DBState V :=
        { s1 with memory := { s1.memory with
            userTables := setTable s1.memory.userTables t del.1 } }
      match (if own == some true then unlock_table s2 pid t false
             else (s2, .ok ())) with
      | (s3, .error e) => (s3, .error e)
      | (s3, .ok _) =>
        let s4 := save_database (updateMeta s3)
        if ¬ isMeta t then
          match getInsertStack s4.memory.meta_insert_stack t with
          | none => (s4, .error .indexError)
          | some old =>
            let s5 : DBState V :=
              { s4 with memory := { s4.memory with
                  meta_insert_stack :=
                    setInsertStack s4.memory.meta_insert_stack t
                      (old ++ del.2) } }
            (save_database s5, .ok ())
        else (save_database s4, .ok ())

/-- `Database.update` (database.py lines 297-316): load, lock, run
`Table._update_rows` (whose partial mutation stays in memory; on a violation
the exception propagates without unlocking or saving), else unlock if
acquired, refresh meta tables and save.  (The `column=value` splitting of
`set_args` is textual input glue; column and value arrive split here.) -/
def update (s : DBState V) (pid : Nat) (t : String) (setCol : String)
    (setVal : V) (pred : Row V → Bool) : DBState V × Except Err Unit :=
  let s0 := load_database s
  match lock_table s0 pid t "x" with
  | (s1, .error e) => (s1, .error e)
  | (s1, .ok own) =>
    match lookupTable s1.memory.userTables t with
    | none => (s1, .error .keyError)
    | some tb =>
      let upd := tableUpdateRows tb setVal setCol pred
      let s2 : DBState V :=
        { s1 with memory := { s1.memory with
            userTables := setTable s1.memory.userTables t upd.1 } }
      match upd.2 with
      | some e => (s2, .error e)
      | none =>
        match (if own == some true then unlock_table s2 pid t false
               else (s2, .ok ())) with
        | (s3, .error e) => (s3, .error e)
        | (s3, .ok _) => (save_database (updateMeta s3), .ok ())

/-- `Database.cast` (database.py lines 248-265): load, lock, run
`Table._cast_column`.  The source wraps nothing in a handler: a cast failure
propagates without unlocking and without saving, so a lock row acquired by
this call stays persisted.  On success: unlock if acquired, refresh meta
tables, save. -/
def cast (s : DBState V) (pid : Nat) (col t : String)
    (conv : V → Option V) : DBState V × Except Err Unit :=
  let s0 := load_database s
  match lock_table s0 pid t "x" with
  | (s1, .error e) => (s1, .error e)
  | (s1, .ok own) =>
    match (match lookupTable s1.memory.userTables t with
           | none => Except.error Err.keyError
           | some tb => tableCastColumn tb col conv) with
    | .error e => (s1, .error e)
    | .ok tb2 =>
      let s2 : DBState V :=
        { s1 with memory := { s1.memory with
            userTables := setTable s1.memory.userTables t tb2 } }
      match (if own == some true then unlock_table s2 pid t false
             else (s2, .ok ())) with
      | (s3, .error e) => (s3, .error e)
      | (s3, .ok _) => (save_database (updateMeta s3), .ok ())

/-- `Database.sort` (database.py lines 422-439): load, lock, reorder the
rows, unlock if acquired, refresh meta tables, save. -/
def sort (s : DBState V) (pid : Nat) (t col : String) (asc : Bool)
    (le : V → V → Bool) : DBState V × Except Err Unit :=
  let s0 := load_database s
  match lock_table s0 pid t "x" with
  | (s1, .error e) => (s1, .error e)
  | (s1, .ok own) =>
    match lookupTable s1.memory.userTables t with
    | none => (s1, .error .keyError)
    | some tb =>
      let s2 : DBState V :=
        { s1 with memory := { s1.memory with
            userTables := setTable s1.memory.userTables t
              (tableSort tb col asc le) } }
      match (if own == some true then unlock_table s2 pid t false
             else (s2, .ok ())) with
      | (s3, .error e) => (s3, .error e)
      | (s3, .ok _) => (save_database (updateMeta s3), .ok ())

/-- `Database.delete_from` as `drop_table`/`drop_index` invoke it on a meta
table, with a `name=value` condition given by `upd`: `load_database`, then
`lock_table` (a no-op returning `None` for meta names), tombstone the
matching meta rows, refresh meta tables, save; no insert-stack recording for
meta tables; final unconditional save. -/
def delete_from_meta (s : DBState V) (upd : Store V → Store V) : DBState V :=
  let s0 := load_database s
  let s1 : DBState V := { s0 with memory := upd s0.memory }
  save_database (save_database (updateMeta s1))

/-- `Database.drop_index` (database.py lines 875-890): when the index name is
registered, tombstone its `meta_indexes` row via `delete_from`, delete the
saved index artifact, and save. -/
def drop_index (s : DBState V) (iname : String) : DBState V :=
  if (s.memory.meta_indexes.filterMap id).any (fun r => r.2.2.1 == iname) then
    let s1 := delete_from_meta s (fun st =>
      { st with meta_indexes := deleteIndexRowsFor st.meta_indexes iname })
    let s2 : DBState V :=
      { s1 with savedIndexes := s1.savedIndexes.filter (fun p =>
          ¬ p.1 == ("meta_" ++ iname ++ "_index")) }
    save_database s2
  else s

/-- The index names registered for table `t`, in `meta_indexes` row order
(the `to_be_deleted` loop of `drop_table` reads each name before its own
`drop_index` call tombstones the row). -/
def indexNamesFor (mi : List (Option IndexRow)) (t : String) : List String :=
  mi.filterMap (fun r =>
    match r with
    | some x => if x.1 == t then some x.2.2.1 else none
    | none => none)

/-- `Database.drop_table` (database.py lines 139-173): load, lock, pop the
table from the dict (KeyError when absent), delete its persisted artifact,
tombstone its rows in `meta_locks`, `meta_length`, `meta_insert_stack` via
`delete_from`, drop its registered indexes in reverse registration order,
save.  The model keeps the four meta tables as dedicated fields, so dropping
a meta table (which would corrupt the source database as well) is outside
the state space and reported as a KeyError. -/
def drop_table (s : DBState V) (pid : Nat) (t : String) :
    DBState V × Except Err Unit :=
  if isMeta t then (s, .error .keyError)
  else
    let s0 := load_database s
    match lock_table s0 pid t "x" with
    | (s1, .error e) => (s1, .error e)
    | (s1, .ok _own) =>
      if ¬ (tableNames s1.memory.userTables).contains t then
        (s1, .error .keyError)
      else
        let s2 : DBState V :=
          { s1 with
              memory := { s1.memory with
                userTables := removeTable s1.memory.userTables t }
              persisted := { s1.persisted with
                userTables := removeTable s1.persisted.userTables t } }
        let s3 := delete_from_meta s2 (fun st =>
          { st with meta_locks := deleteLocksFor st.meta_locks t })
        let s4 := delete_from_meta s3 (fun st =>
          { st with meta_length := deleteLengthFor st.meta_length t })
        let s5 := delete_from_meta s4 (fun st =>
          { st with meta_insert_stack := deleteStackFor st.meta_insert_stack t })
        let s6 := (indexNamesFor s5.memory.meta_indexes t).reverse.foldl
          (fun st i => drop_index st i) s5
        (save_database s6, .ok ())

end DbOps

/-! ## The join dispatcher and the index layer -/

section JoinIndexOps

variable {V : Type} [DecidableEq V]

/-- Modelled from the spec: the join algorithms themselves live in the
missing `joins.py` (spec section 4.4); the embedding records which algorithm
(and, for index-nested-loop, which side and saved index) the dispatcher in
`Database.join` selected.  The claims concern only that dispatch. -/
inductive JoinRes where
  | naive (mode : String)
  | inlj (side : String) (indexName : String)
  | smj
deriving DecidableEq, Repr

/-- Characters before the first `=` (kernel-reducible form of the split). -/
def takeUntilEq : List Char → List Char
  | [] => []
  | c :: cs => if c = '=' then [] else c :: takeUntilEq cs

/-- `condition.split('=')[0]`: the text before the first `=`. -/
def condLeftCol (cond : String) : String :=
  String.mk (takeUntilEq cond.data)

/-- `Database._has_index(t)` (database.py lines 833-845, `column_name=None`):
does any live `meta_indexes` row mention `t`? -/
def hasIndexAny (mi : List (Option IndexRow)) (t : String) : Bool :=
  (mi.filterMap id).any (fun r => r.1 == t)

/-- The `[t, col] in [[row[0], row[1]] for row in data]` test of the `inl`
branch, over the live rows selected for `t`. -/
def hasIndexOn (mi : List (Option IndexRow)) (t col : String) : Bool :=
  (mi.filterMap id).any (fun r => r.1 == t && r.2.1 == col)

/-- The `for row in data: if row[0]==t and row[1]==col: index_name=row[2]`
loop: first matching registered index name. -/
def indexNameFor (mi : List (Option IndexRow)) (t col : String) : String :=
  (((mi.filterMap id).find? (fun r => r.1 == t && r.2.1 == col)).map
    (fun r => r.2.2.1)).getD ""

/-- `Database.join` (database.py lines 452-548) for two named tables: load,
bail out (returning `None`) when `is_locked` reports a lock — though
`is_locked` in fact raises on a foreign lock, which propagates — then
dispatch on the mode.  In the `inl` branch: raise the IndexUnavailable error
(`'Index-nested-loop join cannot be executed. Use inner join instead.'`)
only when *neither* table has *any* index; otherwise look for an index on
the condition's left column on the right, then the left table, and when
neither carries one fall off the end of the `if/elif` chain with `res`
unassigned, so the subsequent `res._name`/`return res` raises
UnboundLocalError. -/
def join (s : DBState V) (pid : Nat) (mode : String) (lt rt : String)
    (cond : String) : DBState V × Except Err (Option JoinRes) :=
  let s0 := load_database s
  match is_locked s0 pid lt with
  | (s1, .error e) => (s1, .error e)
  | (s1, .ok bl) =>
    match is_locked s1 pid rt with
    | (s2, .error e) => (s2, .error e)
    | (s2, .ok br) =>
      if bl || br then (s2, .ok none)
      else
        match lookupTable s2.memory.userTables lt,
              lookupTable s2.memory.userTables rt with
        | some _ltb, some _rtb =>
          if mode == "inner" then (s2, .ok (some (.naive "inner")))
          else if mode == "left" then (s2, .ok (some (.naive "left")))
          else if mode == "right" then (s2, .ok (some (.naive "right")))
          else if mode == "full" then (s2, .ok (some (.naive "full")))
          else if mode == "inl" then
            let lIdx := hasIndexAny s2.memory.meta_indexes lt
            let rIdx := hasIndexAny s2.memory.meta_indexes rt
            if ¬ lIdx && ¬ rIdx then (s2, .error .indexUnavailable)
            else
              let col := condLeftCol cond
              let existR := rIdx && hasIndexOn s2.memory.meta_indexes rt col
              let existL := lIdx && hasIndexOn s2.memory.meta_indexes lt col
              if existR then
                (s2, .ok (some (.inlj "right"
                  (indexNameFor s2.memory.meta_indexes rt col))))
              else if existL then
                (s2, .ok (some (.inlj "left"
                  (indexNameFor s2.memory.meta_indexes lt col))))
              else (s2, .error .unboundLocal)
          else if mode == "sm" then (s2, .ok (some .smj))
          else (s2, .error .notImplemented)
        | _, _ => (s2, .error .keyError)

/-- `Database._construct_index` (database.py lines 805-831), the loop
`for idx, key in enumerate(column): if key is None: continue; insert(key, idx)`:
the entries handed to the fresh index structure, as (key, position) pairs.
Modelled from the spec: the B-tree / extendible-hash structures themselves
live in the missing `btree.py` / `extendible_hashing.py`; an index is
represented by the sequence of entries inserted into it (spec sections
4.2-4.3: insert-only structures whose lookups return exactly the inserted
positions). -/
def construct_index_entries (colVals : List (Option V)) : List (V × Nat) :=
  colVals.enum.filterMap (fun p => p.2.map (fun v => (v, p.1)))

/-- The values of column `col` of table `tb` (`Table.column_by_name`). -/
def columnByName (tb : Table V) (col : String) : Option (List (Option V)) :=
  (tb.column_names.indexOf? col).map (fun ci =>
    tb.data.map (fun r => r.getD ci none))

/-- Key metadata of the table bound to `t`: primary key, unique columns,
`pk_idx`.  The four meta tables are created with no primary key and no
unique columns (database.py lines 58-61). -/
def tableKeyInfo (st : Store V) (t : String) :
    Option (Option String × Option (List String) × Option Nat) :=
  if isMeta t then some (none, none, none)
  else (lookupTable st.userTables t).map (fun tb =>
    (tb.pk, tb.unique_columns, tb.pk_idx))

/-- Tail of `Database.create_index` after the key-column checks: duplicate
name / duplicate column checks, registration in `meta_indexes`, index
construction (`_construct_index` + `_save_index`), saving. -/
def create_index_cont (s : DBState V) (iname t col ty : String) :
    DBState V × Except Err Unit :=
  if (s.memory.meta_indexes.filterMap id).any (fun r => r.2.2.1 == iname) then
    (s, .error .dupIndexName)
  else if (s.memory.meta_indexes.filterMap id).any
      (fun r => r.1 == t && r.2.1 == col) then
    (s, .error .dupIndexColumn)
  else
    let s1 : DBState V :=
      { s with memory := { s.memory with
          meta_indexes := s.memory.meta_indexes ++ [some (t, col, iname, ty)] } }
    match (lookupTable s1.memory.userTables t).bind
        (fun tb => columnByName tb col) with
    | none => (s1, .error .keyError)
    | some vals =>
      let s2 : DBState V :=
        { s1 with savedIndexes := s1.savedIndexes ++
            [("meta_" ++ iname ++ "_index", construct_index_entries vals)] }
      (save_database s2, .ok ())

/-- `Database.create_index` (database.py lines 759-803).  The decisive
check is the Python line
`if column_name != pk and column_name not in unique_columns:` —
when the table has a primary key but `unique_columns` is `None` and the
column is not the primary key, the membership test runs on `None` and
raises TypeError before anything is registered or constructed. -/
def create_index (s : DBState V) (iname t col ty : String) :
    DBState V × Except Err Unit :=
  if ¬ (keysOf s.memory).contains t then (s, .error (.notInDb t))
  else if ¬ (ty == "btree" || ty == "hash") then (s, .error .badIndexType)
  else
    match tableKeyInfo s.memory t with
    | none => (s, .error .keyError)
    | some info =>
      if info.2.2 == none && info.2.1 == none then (s, .error .noKeyColumns)
      else if some col ≠ info.1 then
        match info.2.1 with
        | none => (s, .error .typeError)
        | some us =>
          if ¬ us.contains col then (s, .error .notKeyColumn)
          else create_index_cont s iname t col ty
      else create_index_cont s iname t col ty

end JoinIndexOps

/-! ## Concrete states used by witnesses and counterexamples -/

deriving instance DecidableEq for Except

/-- A two-row user table with primary key `id` and no unique columns. -/
def empT : Table Nat :=
  { name := "emp", column_names := ["id", "val"], column_types := ["int", "int"],
    pk := some "id", unique_columns := none,
    data := [[some 1, some 10], [some 2, some 20]] }

/-- A store holding `empT`, its bookkeeping rows, and no locks. -/
def st0 : Store Nat :=
  { userTables := [("emp", empT)]
    meta_length := [some ("emp", 2)]
    meta_locks := []
    meta_insert_stack := [some ("emp", [])]
    meta_indexes := [] }

/-- Clean state: persisted and memory agree, no locks, no indexes. -/
def db0 : DBState Nat :=
  { persisted := st0, memory := st0, savedIndexes := [] }

/-- Store as `st0` but with `emp` locked by pid 2. -/
def stLocked2 : Store Nat :=
  { userTables := [("emp", empT)]
    meta_length := [some ("emp", 2)]
    meta_locks := [some ("emp", 2, "x")]
    meta_insert_stack := [some ("emp", [])]
    meta_indexes := [] }

/-- State where process 2 holds the lock on `emp`. -/
def dbLocked2 : DBState Nat :=
  { persisted := stLocked2, memory := stLocked2, savedIndexes := [] }

/-- Store as `st0` but with `emp` locked by pid 1. -/
def stOwn1 : Store Nat :=
  { userTables := [("emp", empT)]
    meta_length := [some ("emp", 2)]
    meta_locks := [some ("emp", 1, "x")]
    meta_insert_stack := [some ("emp", [])]
    meta_indexes := [] }

/-- State where process 1 (the caller in the witnesses) holds the lock. -/
def dbOwn1 : DBState Nat :=
  { persisted := stOwn1, memory := stOwn1, savedIndexes := [] }

/-- Store with a lock row for the name `ghost`, which names no table. -/
def stGhost : Store Nat :=
  { userTables := [("emp", empT)]
    meta_length := [some ("emp", 2)]
    meta_locks := [some ("ghost", 2, "x")]
    meta_insert_stack := [some ("emp", [])]
    meta_indexes := [] }

/-- State with an orphaned lock row for an unknown table name. -/
def dbGhost : DBState Nat :=
  { persisted := stGhost, memory := stGhost, savedIndexes := [] }

/-- State whose in-memory copy is stale: the persisted lock on `emp` held by
pid 2 is missing from memory. -/
def dbStale : DBState Nat :=
  { persisted := stLocked2, memory := st0, savedIndexes := [] }

/-- Store with two tables where `emp` carries an index on column `val`
(not on `id`). -/
def stJ : Store Nat :=
  { userTables := [("emp", empT), ("dept", { empT with name := "dept" })]
    meta_length := []
    meta_locks := []
    meta_insert_stack := []
    meta_indexes := [some ("emp", "val", "idxv", "btree")] }

/-- State for the index-nested-loop dispatch counterexample. -/
def dbJ : DBState Nat :=
  { persisted := stJ, memory := stJ, savedIndexes := [] }

/-- A conversion that fails on the value 10 (present in `empT.val`) and
succeeds elsewhere: drives `Table._cast_column` into its SchemaMismatch. -/
def convBad : Nat → Option Nat :=
  fun v => if v == 10 then none else some v

/-! ## Lemma kit: first-match queries over the meta rows -/

section Lemmas

theorem selectLockPid_deleteLocksFor (l : List (Option LockRow)) (t : String) :
    selectLockPid (deleteLocksFor l t) t = none := by
  induction l with
  | nil => rfl
  | cons hd tl ih =>
    cases hd with
    | none => simpa [deleteLocksFor, selectLockPid, List.filterMap_cons] using ih
    | some x =>
      by_cases hx : x.1 == t <;>
        simp_all [deleteLocksFor, selectLockPid, List.filterMap_cons, List.find?]

theorem filterMap_id_cons_some (x : LockRow) (tl : List (Option LockRow)) :
    List.filterMap id (some x :: tl) = x :: List.filterMap id tl := rfl

theorem filterMap_id_cons_none (tl : List (Option LockRow)) :
    List.filterMap id ((none : Option LockRow) :: tl) = List.filterMap id tl := rfl

theorem deleteLocksFor_of_none (l : List (Option LockRow)) (t : String)
    (h : selectLockPid l t = none) : deleteLocksFor l t = l := by
  induction l with
  | nil => rfl
  | cons hd tl ih =>
    cases hd with
    | none =>
      have h2 : selectLockPid tl t = none := by
        simpa [selectLockPid, filterMap_id_cons_none] using h
      have h3 := ih h2
      simp only [deleteLocksFor] at h3 ⊢
      simpa using h3
    | some x =>
      by_cases hx : x.1 == t
      · exfalso
        simp [selectLockPid, filterMap_id_cons_some, List.find?, hx] at h
      · have h2 : selectLockPid tl t = none := by
          simp only [selectLockPid, filterMap_id_cons_some, List.find?, hx] at h
          simpa [selectLockPid] using h
        have h3 := ih h2
        simp only [deleteLocksFor] at h3 ⊢
        simp only [List.map_cons, hx]
        simp_all

end Lemmas

/-! ## Claim C1: `lock_table` is tri-state, but only on lockable names -/

/-- C1, counterexample.  The claim quantifies over *every* table name, but
`lock_table` (database.py line 557) bails out with a bare `return` for meta
tables and for names not in the database: on the name `ghost`, which has no
lock record, it neither inserts a record nor reports *acquired*. -/
theorem lock_acquire_unknown_name_cex :
    selectLockPid db0.persisted.meta_locks "ghost" = none ∧
    (lock_table db0 1 "ghost" "x").2 = Except.ok none ∧
    (lock_table db0 1 "ghost" "x").2 ≠ Except.ok (some true) ∧
    (lock_table db0 1 "ghost" "x").1.persisted.meta_locks = [] := by
  refine ⟨rfl, rfl, ?_, rfl⟩
  decide

/-- C1, amended: for every *non-meta table name present in the database*,
lock acquisition is exclusive and tri-state: with no lock record it appends
one for the caller's pid and returns `True` (persisting it); with a record
owned by the caller it returns `False` and inserts nothing; with a record
owned by a different pid it raises `Locked(owner)` naming that pid and
inserts nothing.  (Meta names and unknown names are exempt: `lock_table`
is a no-op returning `None` on them, per the counterexample.) -/
theorem lock_acquire_tristate {V : Type} [DecidableEq V] (s : DBState V)
    (pid : Nat) (t : String) (hmeta : isMeta t = false)
    (hmem : t ∈ keysOf s.memory) :
    (selectLockPid s.persisted.meta_locks t = none →
      (lock_table s pid t "x").2 = .ok (some true) ∧
      (lock_table s pid t "x").1.persisted.meta_locks
        = s.persisted.meta_locks ++ [some (t, pid, "x")]) ∧
    (selectLockPid s.persisted.meta_locks t = some pid →
      (lock_table s pid t "x").2 = .ok (some false) ∧
      (lock_table s pid t "x").1.persisted.meta_locks
        = s.persisted.meta_locks) ∧
    (∀ q, selectLockPid s.persisted.meta_locks t = some q → q ≠ pid →
      (lock_table s pid t "x").2 = .error (.locked t q) ∧
      (lock_table s pid t "x").1.persisted.meta_locks
        = s.persisted.meta_locks) := by
  refine ⟨fun h => ?_, fun h => ?_, fun q h hq => ?_⟩
  · simp [lock_table, hmeta, hmem, h, save_locks, insertLock]
  · simp [lock_table, hmeta, hmem, h]
  · simp [lock_table, hmeta, hmem, h, hq]

/-- C1, witness: on the clean state `db0` the caller acquires `emp`,
and the lock row is persisted. -/
theorem lock_acquire_tristate_wit :
    (lock_table db0 1 "emp" "x").2 = Except.ok (some true) ∧
    (lock_table db0 1 "emp" "x").1.persisted.meta_locks
      = db0.persisted.meta_locks ++ [some ("emp", 1, "x")] :=
  (lock_acquire_tristate db0 1 "emp" (by decide) (by decide)).1 rfl

/-! ## Claim C2: `is_locked` never returns true -/

/-- C2, counterexample.  With `emp` locked by pid 2 and caller pid 1, the
claim says `is_locked` *returns true*; the source instead raises
`Locked(2)` (database.py lines 617-619) — the function has no `return True`
statement at all. -/
theorem is_locked_foreign_raises_cex :
    selectLockPid dbLocked2.persisted.meta_locks "emp" = some 2 ∧
    (2 : Nat) ≠ 1 ∧
    (is_locked dbLocked2 1 "emp").2 = Except.error (Err.locked "emp" 2) ∧
    (is_locked dbLocked2 1 "emp").2 ≠ Except.ok true := by
  refine ⟨rfl, by decide, rfl, by decide⟩

/-- C2, amended: `is_locked` never returns true.  It raises `Locked(owner)`
when a live lock record owned by a different pid exists; in every other
case — meta table, record owned by the caller, or no record — it returns
false (so self-owned locks are reported as unlocked to the owner, as the
claim says, but a foreign lock surfaces as an exception, not `True`). -/
theorem is_locked_spec {V : Type} [DecidableEq V] (s : DBState V)
    (pid : Nat) (t : String) :
    ((is_locked s pid t).2 ≠ Except.ok true) ∧
    (isMeta t = true → (is_locked s pid t).2 = .ok false) ∧
    (selectLockPid s.persisted.meta_locks t = some pid →
      (is_locked s pid t).2 = .ok false) ∧
    (isMeta t = false → selectLockPid s.persisted.meta_locks t = none →
      (is_locked s pid t).2 = .ok false) ∧
    (isMeta t = false → ∀ q, selectLockPid s.persisted.meta_locks t = some q →
      q ≠ pid → (is_locked s pid t).2 = .error (.locked t q)) := by
  refine ⟨?_, fun h => ?_, fun h => ?_, fun hm h => ?_, fun hm q h hq => ?_⟩
  · by_cases hm : isMeta t
    · simp [is_locked, hm]
    · rcases hsel : selectLockPid s.persisted.meta_locks t with _ | p
      · simp [is_locked, hm, hsel]
      · by_cases hp : p = pid <;> simp [is_locked, hm, hsel, hp]
  · simp [is_locked, h]
  · by_cases hm : isMeta t <;> simp [is_locked, hm, h]
  · simp [is_locked, hm, h]
  · simp [is_locked, hm, h, hq]

/-- C2, witness: a self-owned lock is reported as unlocked to its owner. -/
theorem is_locked_spec_wit :
    (is_locked dbOwn1 1 "emp").2 = Except.ok false :=
  (is_locked_spec dbOwn1 1 "emp").2.2.1 rfl

/-! ## Claim C8: `unlock_table` -/

/-- C8, counterexample.  The claim quantifies over *every* table name and
says a forced release removes the record; but `unlock_table` first raises
`Table not in database` (database.py lines 588-589) when the name is not a
key of the tables dict — even under `force`, and even though a lock row for
that name exists; the row stays. -/
theorem unlock_unknown_name_cex :
    selectLockPid dbGhost.memory.meta_locks "ghost" = some 2 ∧
    unlock_table dbGhost 1 "ghost" true
      = (dbGhost, Except.error (Err.notInDb "ghost")) ∧
    selectLockPid (unlock_table dbGhost 1 "ghost" true).1.persisted.meta_locks
      "ghost" = some 2 := by
  exact ⟨rfl, rfl, rfl⟩

/-- C8, amended: for every table name *present in the database*: release
removes the lock record when `force` is set; without `force` it removes the
record when it is owned by the caller's pid, succeeds as a no-op on the live
rows when no record exists, and otherwise raises `Locked(owner)` naming the
owner pid while changing nothing.  (For names not in the database it raises
`Table not in database` regardless of `force`, per the counterexample.) -/
theorem unlock_release_spec {V : Type} [DecidableEq V] (s : DBState V)
    (pid : Nat) (t : String) (hmem : t ∈ keysOf s.memory) :
    ((unlock_table s pid t true).2 = .ok () ∧
      selectLockPid (unlock_table s pid t true).1.persisted.meta_locks t
        = none ∧
      selectLockPid (unlock_table s pid t true).1.memory.meta_locks t
        = none) ∧
    (selectLockPid s.memory.meta_locks t = some pid →
      (unlock_table s pid t false).2 = .ok () ∧
      selectLockPid (unlock_table s pid t false).1.persisted.meta_locks t
        = none) ∧
    (selectLockPid s.memory.meta_locks t = none →
      (unlock_table s pid t false).2 = .ok () ∧
      (unlock_table s pid t false).1.persisted.meta_locks
        = s.memory.meta_locks ∧
      (unlock_table s pid t false).1.memory.meta_locks
        = s.memory.meta_locks) ∧
    (∀ q, selectLockPid s.memory.meta_locks t = some q → q ≠ pid →
      unlock_table s pid t false = (s, .error (.locked t q))) := by
  refine ⟨?_, fun h => ?_, fun h => ?_, fun q h hq => ?_⟩
  · simp [unlock_table, hmem, unlockRemove, save_locks,
      selectLockPid_deleteLocksFor]
  · simp [unlock_table, hmem, h, unlockRemove, save_locks,
      selectLockPid_deleteLocksFor]
  · simp [unlock_table, hmem, h, unlockRemove, save_locks,
      deleteLocksFor_of_none _ _ h]
  · simp [unlock_table, hmem, h, hq]

/-- C8, witness: the owner's release removes the persisted lock row. -/
theorem unlock_release_spec_wit :
    (unlock_table dbOwn1 1 "emp" false).2 = Except.ok () ∧
    selectLockPid (unlock_table dbOwn1 1 "emp" false).1.persisted.meta_locks
      "emp" = none :=
  (unlock_release_spec dbOwn1 1 "emp" (by decide)).2.1 rfl

/-! ## Claim C9: `create_index` on a non-key column of a table with a
primary key but no unique columns -/

/-- C9: when the table has a primary key but `unique_columns` is `None`,
`create_index` on any column other than the primary key raises (the Python
membership test `column_name not in unique_columns` runs on `None` and
raises TypeError, database.py line 786) and leaves the entire state — in
particular `meta_indexes` and the saved index artifacts — unchanged. -/
theorem create_index_missing_unique_raises {V : Type} [DecidableEq V]
    (s : DBState V) (iname t col ty : String) (tb : Table V) (p : String)
    (pi : Nat) (hmem : t ∈ keysOf s.memory)
    (hty : (ty == "btree" || ty == "hash") = true)
    (hmeta : isMeta t = false)
    (htb : lookupTable s.memory.userTables t = some tb)
    (hpk : tb.pk = some p) (hpi : tb.pk_idx = some pi)
    (huniq : tb.unique_columns = none) (hcol : col ≠ p) :
    create_index s iname t col ty = (s, .error .typeError) := by
  simp [create_index, tableKeyInfo, hmem, hty, hmeta, htb, hpk, hpi, huniq,
    hcol]

/-- C9, witness: indexing the non-key column `val` of `empT` (primary key
`id`, no unique columns) raises and changes nothing. -/
theorem create_index_missing_unique_raises_wit :
    create_index db0 "idx1" "emp" "val" "btree"
      = (db0, Except.error Err.typeError) :=
  create_index_missing_unique_raises db0 "idx1" "emp" "val" "btree" empT
    "id" 0 (by decide) rfl rfl rfl rfl rfl rfl (by decide)

/-! ## Claim C10: index construction skips empty keys -/

/-- C10: the entries handed to an index built by `_construct_index` are
exactly the (value, position) pairs of the positions whose indexed-column
value is non-empty — the `if key is None: continue` of database.py line 823
skips every tombstone position, so lookups can never return one. -/
theorem construct_index_skips_none {V : Type} (colVals : List (Option V))
    (k : V) (i : Nat) :
    ((k, i) ∈ construct_index_entries colVals ↔
      colVals[i]? = some (some k)) := by
  simp only [construct_index_entries, List.mem_filterMap]
  constructor
  · rintro ⟨⟨j, v⟩, hmem, hf⟩
    cases v with
    | none => simp at hf
    | some w =>
      have hf2 : (w, j) = (k, i) := by simpa using hf
      have hw : w = k := congrArg Prod.fst hf2
      have hj : j = i := congrArg Prod.snd hf2
      subst hw hj
      have := List.mk_mem_enum_iff_getElem?.1 hmem
      simp_all
  · intro h
    exact ⟨(i, some k), List.mk_mem_enum_iff_getElem?.2 (by simpa using h),
      rfl⟩

/-! ## Claim C3: index-nested-loop dispatch with no matching join-column
index -/

/-- C3: on two tables where the left table carries an index on `val` but the
join condition is on `id` (no index on the join column on either side),
`Database.join` in mode `inl` does *not* raise the IndexUnavailable error —
that raise only fires when neither table has *any* index (database.py lines
494-496).  Both `column_exist_r` and `column_exist_l` are false, no branch
assigns `res`, and the function falls through to `res._name`/`return res`,
raising UnboundLocalError.  It still never falls back to a naive join.
The final conjunct shows the claim is right about the no-index-at-all case,
which does surface IndexUnavailable — making the gap at the failing input a
slip, not a policy. -/
theorem inlj_nonjoin_index_unbound :
    hasIndexAny dbJ.persisted.meta_indexes "emp" = true ∧
    hasIndexOn dbJ.persisted.meta_indexes "emp" "id" = false ∧
    hasIndexOn dbJ.persisted.meta_indexes "dept" "id" = false ∧
    (join dbJ 1 "inl" "emp" "dept" "id=id").2 = Except.error Err.unboundLocal ∧
    (join dbJ 1 "inl" "emp" "dept" "id=id").2
      ≠ Except.error Err.indexUnavailable ∧
    (join dbJ 1 "inl" "emp" "dept" "id=id").2
      ≠ Except.ok (some (JoinRes.naive "inner")) ∧
    (join db0 1 "inl" "emp" "emp" "id=id").2
      = Except.error Err.indexUnavailable := by
  exact ⟨rfl, rfl, rfl, rfl, by decide, by decide, rfl⟩

/-! ## Claim C6: failed insert / cast / lock acquisition and durable state -/

/-- C6: a failing cast *does* leave a durable mutation behind.  On the clean
state `db0` (no locks), `cast` acquires and persists the lock row for `emp`,
then `Table._cast_column` fails; `Database.cast` has no exception handler
(database.py lines 258-265), so nothing unlocks: the lock row created by the
failed operation stays persisted, contradicting the claim.  For contrast,
the trailing conjuncts evaluate a failing insert on the same state: it
aborts with the persisted table, insert stack and live lock rows exactly as
before (the unlock-on-failure handler of database.py lines 284-289). -/
theorem cast_failure_leaks_lock :
    db0.persisted.meta_locks = [] ∧
    (cast db0 1 "val" "emp" convBad).2 = Except.error Err.schemaMismatch ∧
    (cast db0 1 "val" "emp" convBad).1.persisted.meta_locks
      = [some ("emp", 1, "x")] ∧
    (insert_into db0 1 "emp" [some 1, some 30]).2
      = Except.error Err.constraintViolation ∧
    (insert_into db0 1 "emp" [some 1, some 30]).1.persisted.userTables
      = db0.persisted.userTables ∧
    (insert_into db0 1 "emp" [some 1, some 30]).1.persisted.meta_insert_stack
      = db0.persisted.meta_insert_stack ∧
    selectLockPid
      (insert_into db0 1 "emp" [some 1, some 30]).1.persisted.meta_locks
      "emp" = none := by
  exact ⟨rfl, rfl, rfl, rfl, rfl, rfl, rfl⟩

/-! ## Claim C4: reentrant ownership by pid -/

/-- `lock_table` when the caller's pid already owns the live lock record:
report *already held* (`False`), reload `meta_locks` into memory, insert
nothing, persist nothing. -/
theorem lock_table_owned {V : Type} [DecidableEq V] (s : DBState V)
    (pid : Nat) (t : String) (hmeta : isMeta t = false)
    (hmem : t ∈ keysOf s.memory)
    (hsel : selectLockPid s.persisted.meta_locks t = some pid) :
    lock_table s pid t "x" =
      ({ s with memory :=
          { s.memory with meta_locks := s.persisted.meta_locks } },
       .ok (some false)) := by
  simp [lock_table, hmeta, hmem, hsel]

/-- C4: when the caller's pid already owns the lock on a (lockable) table,
`lock_table` reports already-held without inserting a second record, each
mutating operation's `if lock_ownership: unlock` is skipped, and the
persisted lock table after `insert_into` / `update` / `delete_from` /
`sort` / `cast` is exactly the one before — the pre-existing lock record is
still present and unchanged whether the operation succeeds or aborts. -/
theorem reentrant_lock_frame {V : Type} [DecidableEq V] (s : DBState V)
    (pid : Nat) (t col : String) (row : Row V) (v : V)
    (pred : Row V → Bool) (asc : Bool) (le : V → V → Bool)
    (conv : V → Option V) (hmeta : isMeta t = false)
    (hmem : t ∈ keysOf (load_database s).memory)
    (hsel : selectLockPid s.persisted.meta_locks t = some pid) :
    (lock_table (load_database s) pid t "x").2 = .ok (some false) ∧
    (lock_table (load_database s) pid t "x").1.persisted.meta_locks
      = s.persisted.meta_locks ∧
    (lock_table (load_database s) pid t "x").1.memory.meta_locks
      = s.persisted.meta_locks ∧
    (insert_into s pid t row).1.persisted.meta_locks
      = s.persisted.meta_locks ∧
    (update s pid t col v pred).1.persisted.meta_locks
      = s.persisted.meta_locks ∧
    (delete_from s pid t pred).1.persisted.meta_locks
      = s.persisted.meta_locks ∧
    (sort s pid t col asc le).1.persisted.meta_locks
      = s.persisted.meta_locks ∧
    (cast s pid col t conv).1.persisted.meta_locks
      = s.persisted.meta_locks := by
  have hl := lock_table_owned (load_database s) pid t hmeta hmem hsel
  refine ⟨by rw [hl], by rw [hl]; rfl, by rw [hl]; rfl, ?_, ?_, ?_, ?_, ?_⟩
  · unfold insert_into
    dsimp only
    rw [hl]
    simp only [show (some false == some true) = false from rfl,
      Bool.false_eq_true, if_false]
    repeat' split
    all_goals rfl
  · unfold update
    dsimp only
    rw [hl]
    simp only [show (some false == some true) = false from rfl,
      Bool.false_eq_true, if_false]
    repeat' split
    all_goals rfl
  · unfold delete_from
    dsimp only
    rw [hl]
    simp only [show (some false == some true) = false from rfl,
      Bool.false_eq_true, if_false]
    repeat' split
    all_goals rfl
  · unfold sort
    dsimp only
    rw [hl]
    simp only [show (some false == some true) = false from rfl,
      Bool.false_eq_true, if_false]
    repeat' split
    all_goals rfl
  · unfold cast
    dsimp only
    rw [hl]
    simp only [show (some false == some true) = false from rfl,
      Bool.false_eq_true, if_false]
    repeat' split
    all_goals rfl

/-- C4, witness: with `emp` locked by the caller (pid 1), acquisition inside
a mutating call reports already-held and an insert leaves the persisted lock
row untouched. -/
theorem reentrant_lock_frame_wit :
    (lock_table (load_database dbOwn1) 1 "emp" "x").2
      = Except.ok (some false) ∧
    (insert_into dbOwn1 1 "emp" ([some 3, some 30] : Row Nat)).1.persisted.meta_locks
      = dbOwn1.persisted.meta_locks := by
  have h := reentrant_lock_frame dbOwn1 1 "emp" "val"
    ([some 3, some 30] : Row Nat) 0 (fun _ => false) true
    (fun a b => decide (a ≤ b)) (fun v => some v) (by decide) (by decide) rfl
  exact ⟨h.1, h.2.2.2.1⟩

/-! ## Claim C5: read-before / write-after at full-table granularity -/

/-- C5, counterexample.  `create_table` (database.py lines 107-137) never
calls `load_database`: two states that agree durably and whose in-memory
dicts the reload would make equal are distinguished by `create_table`, and
the stale in-memory `meta_locks` (missing the persisted lock held by pid 2)
is written back over the durable lock state. -/
theorem create_table_no_reload_cex :
    loadStore dbStale.persisted dbStale.memory
      = loadStore dbStale.persisted (load_database dbStale).memory ∧
    dbStale.persisted.meta_locks = [some ("emp", 2, "x")] ∧
    (create_table dbStale "t2" ["a"] ["int"] none none).persisted.meta_locks
      = [] ∧
    create_table dbStale "t2" ["a"] ["int"] none none
      ≠ create_table (load_database dbStale) "t2" ["a"] ["int"] none none := by
  refine ⟨by decide, rfl, rfl, by decide⟩

/-- C5, amended: every mutating operation *except* `create_table` reloads
the complete persisted table/lock state before acting — formally, it cannot
distinguish two in-memory states that the reload maps to the same thing —
and persists the complete state after acting (on success the durable store
equals the in-memory store, including the final `save_database`).
`create_table` persists the complete state afterwards but acts on the
in-memory dict without reloading (per the counterexample). -/
theorem reload_persist_discipline {V : Type} [DecidableEq V] (s : DBState V)
    (m2 : Store V) (pid : Nat) (t col nm : String) (row : Row V) (v : V)
    (pred : Row V → Bool) (asc : Bool) (le : V → V → Bool)
    (conv : V → Option V) (cols tys : List String) (pk : Option String)
    (uniqs : Option (List String)) (hmeta : isMeta t = false)
    (hre : loadStore s.persisted s.memory = loadStore s.persisted m2) :
    (insert_into s pid t row
      = insert_into ⟨s.persisted, m2, s.savedIndexes⟩ pid t row) ∧
    (update s pid t col v pred
      = update ⟨s.persisted, m2, s.savedIndexes⟩ pid t col v pred) ∧
    (delete_from s pid t pred
      = delete_from ⟨s.persisted, m2, s.savedIndexes⟩ pid t pred) ∧
    (sort s pid t col asc le
      = sort ⟨s.persisted, m2, s.savedIndexes⟩ pid t col asc le) ∧
    (cast s pid col t conv
      = cast ⟨s.persisted, m2, s.savedIndexes⟩ pid col t conv) ∧
    (drop_table s pid t = drop_table ⟨s.persisted, m2, s.savedIndexes⟩ pid t) ∧
    ((insert_into s pid t row).2 = .ok () →
      (insert_into s pid t row).1.persisted
        = (insert_into s pid t row).1.memory) ∧
    ((update s pid t col v pred).2 = .ok () →
      (update s pid t col v pred).1.persisted
        = (update s pid t col v pred).1.memory) ∧
    ((delete_from s pid t pred).2 = .ok () →
      (delete_from s pid t pred).1.persisted
        = (delete_from s pid t pred).1.memory) ∧
    ((sort s pid t col asc le).2 = .ok () →
      (sort s pid t col asc le).1.persisted
        = (sort s pid t col asc le).1.memory) ∧
    ((cast s pid col t conv).2 = .ok () →
      (cast s pid col t conv).1.persisted = (cast s pid col t conv).1.memory) ∧
    ((drop_table s pid t).2 = .ok () →
      (drop_table s pid t).1.persisted = (drop_table s pid t).1.memory) ∧
    ((create_table s nm cols tys pk uniqs).persisted
      = (create_table s nm cols tys pk uniqs).memory) := by
  have h1 : load_database s
      = load_database ⟨s.persisted, m2, s.savedIndexes⟩ := by
    simp [load_database, hre]
  refine ⟨?_, ?_, ?_, ?_, ?_, ?_, ?_, ?_, ?_, ?_, ?_, ?_, ?_⟩
  · unfold insert_into; rw [h1]
  · unfold update; rw [h1]
  · unfold delete_from; rw [h1]
  · unfold sort; rw [h1]
  · unfold cast; rw [h1]
  · unfold drop_table; rw [h1]; simp [hmeta]
  · unfold insert_into
    dsimp only
    repeat' split
    all_goals intro h
    all_goals first
      | exact Except.noConfusion h
      | rfl
  · unfold update
    dsimp only
    repeat' split
    all_goals intro h
    all_goals first
      | exact Except.noConfusion h
      | rfl
  · unfold delete_from
    dsimp only
    repeat' split
    all_goals intro h
    all_goals first
      | exact Except.noConfusion h
      | rfl
  · unfold sort
    dsimp only
    repeat' split
    all_goals intro h
    all_goals first
      | exact Except.noConfusion h
      | rfl
  · unfold cast
    dsimp only
    repeat' split
    all_goals intro h
    all_goals first
      | exact Except.noConfusion h
      | rfl
  · unfold drop_table
    dsimp only
    repeat' split
    all_goals intro h
    all_goals first
      | exact Except.noConfusion h
      | rfl
  · rfl

/-- C5, witness: `insert_into` on the clean state ignores a stale in-memory
lock table that the reload would overwrite, and on success leaves the
durable store equal to the in-memory store. -/
theorem reload_persist_discipline_wit :
    (insert_into db0 1 "emp" ([some 3, some 30] : Row Nat)
      = insert_into ⟨db0.persisted, stOwn1, db0.savedIndexes⟩ 1 "emp"
          [some 3, some 30]) ∧
    ((insert_into db0 1 "emp" ([some 3, some 30] : Row Nat)).1.persisted
      = (insert_into db0 1 "emp" [some 3, some 30]).1.memory) := by
  have h := reload_persist_discipline db0 stOwn1 1 "emp" "val" "t2"
    ([some 3, some 30] : Row Nat) 0 (fun _ => false) true
    (fun a b => decide (a ≤ b)) (fun v => some v) ["a"] ["int"] none none
    (by decide) (by decide)
  exact ⟨h.1, h.2.2.2.2.2.2.1 rfl⟩

/-! ## Claim C7: tombstone slot reuse.  Lemma kit for first-match queries
over stacks and table dictionaries, then evaluation lemmas for
`delete_from` and `insert_into` under a free lock, then the claim. -/

theorem filterMap_id_cons_some2 {α : Type} (x : α) (tl : List (Option α)) :
    List.filterMap id (some x :: tl) = x :: List.filterMap id tl := rfl

theorem getInsertStack_cons_none (tl : List (Option StackRow)) (t : String) :
    getInsertStack (none :: tl) t = getInsertStack tl t := rfl

theorem getInsertStack_cons_pos (x : StackRow) (tl : List (Option StackRow))
    (t : String) (hx : (x.1 == t) = true) :
    getInsertStack (some x :: tl) t = some x.2 := by
  unfold getInsertStack
  rw [filterMap_id_cons_some2]
  simp [List.find?, hx]

theorem getInsertStack_cons_neg (x : StackRow) (tl : List (Option StackRow))
    (t : String) (hx : (x.1 == t) = false) :
    getInsertStack (some x :: tl) t = getInsertStack tl t := by
  unfold getInsertStack
  rw [filterMap_id_cons_some2]
  simp [List.find?, hx]

theorem setInsertStack_cons_some (x : StackRow) (tl : List (Option StackRow))
    (t : String) (v : List Nat) :
    setInsertStack (some x :: tl) t v
      = (if x.1 == t then some (x.1, v) else some x) ::
          setInsertStack tl t v := rfl

theorem setInsertStack_cons_none (tl : List (Option StackRow)) (t : String)
    (v : List Nat) :
    setInsertStack (none :: tl) t v = none :: setInsertStack tl t v := rfl

theorem getInsertStack_append (ms l2 : List (Option StackRow)) (t : String)
    (st : List Nat) (h : getInsertStack ms t = some st) :
    getInsertStack (ms ++ l2) t = some st := by
  unfold getInsertStack at h ⊢
  rw [List.filterMap_append, List.find?_append]
  rcases hf : (List.filterMap id ms).find? (fun r => r.1 == t) with _ | x
  · simp [hf] at h
  · simp only [hf] at h ⊢
    simpa using h

theorem getInsertStack_updateMeta {V : Type} [DecidableEq V]
    (tables : List (String × Table V)) (ms : List (Option StackRow))
    (t : String) (st : List Nat) (h : getInsertStack ms t = some st) :
    getInsertStack (updateMetaInsertStack tables ms) t = some st := by
  induction tables generalizing ms with
  | nil => simpa [updateMetaInsertStack] using h
  | cons p ps ih =>
    simp only [updateMetaInsertStack, List.foldl_cons] at ih ⊢
    by_cases h1 : isMeta p.1
    · simpa [h1] using ih ms h
    · by_cases h2 : hasStackRow ms p.1
      · simpa [h1, h2] using ih ms h
      · simpa [h1, h2] using ih (ms ++ [some (p.1, [])])
          (getInsertStack_append ms _ t st h)

theorem getInsertStack_set (ms : List (Option StackRow)) (t : String)
    (v st : List Nat) (h : getInsertStack ms t = some st) :
    getInsertStack (setInsertStack ms t v) t = some v := by
  induction ms with
  | nil => simp [getInsertStack] at h
  | cons hd tl ih =>
    cases hd with
    | none =>
      rw [getInsertStack_cons_none] at h
      rw [setInsertStack_cons_none, getInsertStack_cons_none]
      exact ih h
    | some x =>
      rw [setInsertStack_cons_some]
      by_cases hx : (x.1 == t) = true
      · rw [if_pos hx,
          getInsertStack_cons_pos (x.1, v) (setInsertStack tl t v) t hx]
      · have hx2 : (x.1 == t) = false := by
          simpa using hx
        rw [getInsertStack_cons_neg _ _ _ hx2] at h
        rw [if_neg (by simp [hx2]), getInsertStack_cons_neg _ _ _ hx2]
        exact ih h

theorem selectLockPid_insert_of_none (l : List (Option LockRow)) (t : String)
    (pid : Nat) (m : String) (h : selectLockPid l t = none) :
    selectLockPid (insertLock l t pid m) t = some pid := by
  unfold selectLockPid at h ⊢
  unfold insertLock
  rw [List.filterMap_append, List.find?_append]
  rcases hf : (List.filterMap id l).find? (fun r => r.1 == t) with _ | x
  · rw [hf]
    simp [List.find?]
  · rw [hf] at h
    simp at h

theorem lookupTable_cons_pos {V : Type} [DecidableEq V]
    (p : String × Table V) (ps : List (String × Table V)) (t : String)
    (hp : (p.1 == t) = true) : lookupTable (p :: ps) t = some p.2 := by
  unfold lookupTable
  simp [List.find?, hp]

theorem lookupTable_cons_neg {V : Type} [DecidableEq V]
    (p : String × Table V) (ps : List (String × Table V)) (t : String)
    (hp : (p.1 == t) = false) :
    lookupTable (p :: ps) t = lookupTable ps t := by
  unfold lookupTable
  simp [List.find?, hp]

theorem lookupTable_setTable {V : Type} [DecidableEq V]
    (u : List (String × Table V)) (t : String) (tb tb0 : Table V)
    (h : lookupTable u t = some tb0) :
    lookupTable (setTable u t tb) t = some tb := by
  induction u with
  | nil => simp [lookupTable] at h
  | cons p ps ih =>
    by_cases hp : (p.1 == t) = true
    · have hstep : setTable (p :: ps) t tb = (t, tb) :: setTable ps t tb := by
        unfold setTable
        simp [List.map_cons, hp]
        intro hne
        exact absurd (by simpa using hp) hne
      rw [hstep, lookupTable_cons_pos (t, tb) _ t (by simp)]
    · have hp2 : (p.1 == t) = false := by simpa using hp
      have hstep : setTable (p :: ps) t tb = p :: setTable ps t tb := by
        unfold setTable
        simp only [List.map_cons]
        rw [if_neg (by simpa using hp)]
      rw [lookupTable_cons_neg p ps t hp2] at h
      rw [hstep, lookupTable_cons_neg p _ t hp2]
      exact ih h

theorem tableNames_setTable {V : Type} [DecidableEq V]
    (u : List (String × Table V)) (t : String) (tb : Table V) :
    tableNames (setTable u t tb) = tableNames u := by
  induction u with
  | nil => rfl
  | cons p ps ih =>
    unfold setTable tableNames at ih ⊢
    simp only [List.map_cons]
    by_cases hp : (p.1 == t) = true
    · rw [if_pos hp]
      simp only [List.map_cons, ih]
      have : t = p.1 := by
        have := (beq_iff_eq.1 hp)
        exact this.symm
      simp [this]
    · rw [if_neg hp]
      simp only [List.map_cons, ih]

theorem mem_tableNames_of_lookup {V : Type} [DecidableEq V]
    (u : List (String × Table V)) (t : String) (tb : Table V)
    (h : lookupTable u t = some tb) : t ∈ tableNames u := by
  induction u with
  | nil => simp [lookupTable] at h
  | cons p ps ih =>
    by_cases hp : (p.1 == t) = true
    · have : p.1 = t := beq_iff_eq.1 hp
      simp [tableNames, this]
    · have hp2 : (p.1 == t) = false := by simpa using hp
      rw [lookupTable_cons_neg p ps t hp2] at h
      have := ih h
      simp [tableNames] at this ⊢
      exact Or.inr this

theorem find?_congr2 {α : Type} (l : List α) (p q : α → Bool)
    (h : ∀ x ∈ l, p x = q x) : l.find? p = l.find? q := by
  induction l with
  | nil => rfl
  | cons a as ih =>
    have ha := h a (by simp)
    by_cases hp : p a = true
    · simp [List.find?, hp, ha ▸ hp]
    · have hp2 : p a = false := by simpa using hp
      have hq2 : q a = false := ha ▸ hp2
      simp only [List.find?, hp2, hq2]
      exact ih (fun x hx => h x (by simp [hx]))

theorem lookupTable_mergeTables {V : Type} [DecidableEq V]
    (u v : List (String × Table V)) (t : String) (tb tb2 : Table V)
    (hu : lookupTable u t = some tb) (hv : lookupTable v t = some tb2) :
    lookupTable (mergeTables u v) t = some tb2 := by
  unfold lookupTable at hu ⊢
  obtain ⟨w, hw, hw2⟩ := Option.map_eq_some'.1 hu
  have hwt := List.find?_some hw
  simp only [] at hwt
  have hwt2 : w.1 = t := by
    have : (w.1 == t) = true := hwt
    exact beq_iff_eq.1 this
  unfold mergeTables
  rw [List.find?_append]
  have hmapnames : ∀ x : String × Table V,
      ((match lookupTable v x.1 with
        | some tb => (x.1, tb)
        | none => x) : String × Table V).1 = x.1 := by
    intro x
    cases hlk : lookupTable v x.1 <;> simp [hlk]
  rw [List.find?_map]
  have hc := find?_congr2 u
    ((fun p => p.1 == t) ∘ fun p =>
      match lookupTable v p.1 with
      | some tb => (p.1, tb)
      | none => p)
    (fun p => p.1 == t)
    (fun x _ => by simp [Function.comp, hmapnames x])
  rw [hc, hw]
  simp [hwt2, hv]

/-- `lock_table` on a lockable table with no live lock record: insert the
caller's row into the reloaded `meta_locks` and persist it, granting
ownership. -/
theorem lock_table_free {V : Type} [DecidableEq V] (s : DBState V)
    (pid : Nat) (t : String) (hmeta : isMeta t = false)
    (hmem : t ∈ keysOf s.memory)
    (hsel : selectLockPid s.persisted.meta_locks t = none) :
    lock_table s pid t "x" =
      (save_locks { s with memory := { s.memory with
          meta_locks := insertLock s.persisted.meta_locks t pid "x" } },
       .ok (some true)) := by
  simp [lock_table, hmeta, hmem, hsel]

/-- `unlock_table` without `force` when the caller owns the live record:
tombstone the record and persist `meta_locks`. -/
theorem unlock_table_owner {V : Type} [DecidableEq V] (s : DBState V)
    (pid : Nat) (t : String) (hmem : t ∈ keysOf s.memory)
    (hsel : selectLockPid s.memory.meta_locks t = some pid) :
    unlock_table s pid t false = (unlockRemove s t, .ok ()) := by
  simp [unlock_table, hmem, hsel]

/-- Full evaluation of `delete_from` on an unlocked user table with an
existing insert-stack row: the run acquires and releases the lock, the
matching rows are tombstoned, and the freed positions are appended to the
persisted insert stack. -/
theorem delete_from_eval {V : Type} [DecidableEq V] (s : DBState V)
    (pid : Nat) (t : String) (pred : Row V → Bool) (tb : Table V)
    (st : List Nat) (hmeta : isMeta t = false)
    (ht : lookupTable (mergeTables s.memory.userTables
        s.persisted.userTables) t = some tb)
    (hstack : getInsertStack s.persisted.meta_insert_stack t = some st)
    (hlock : selectLockPid s.persisted.meta_locks t = none) :
    delete_from s pid t pred =
      (let U1 := setTable (mergeTables s.memory.userTables
          s.persisted.userTables) t (tableDeleteWhere tb pred).1
       let M : Store V :=
        { userTables := U1
          meta_length := updateMetaLength U1 s.persisted.meta_length
          meta_locks := deleteLocksFor
            (insertLock s.persisted.meta_locks t pid "x") t
          meta_insert_stack := setInsertStack
            (updateMetaInsertStack U1 s.persisted.meta_insert_stack) t
            (st ++ (tableDeleteWhere tb pred).2)
          meta_indexes := s.persisted.meta_indexes }
       (⟨M, M, s.savedIndexes⟩, .ok ())) := by
  have hmem1 : t ∈ keysOf (load_database s).memory := by
    unfold keysOf
    exact List.mem_append_left _
      (mem_tableNames_of_lookup _ _ _ (by
        simpa [load_database, loadStore] using ht))
  have hl1 := lock_table_free (load_database s) pid t hmeta hmem1 hlock
  unfold delete_from
  dsimp only
  rw [hl1]
  dsimp only [load_database, loadStore, save_locks, save_database]
  rw [ht]
  dsimp only
  rw [if_pos (show (some true == some true) = true from rfl)]
  rw [unlock_table_owner _ pid t
    (by
      unfold keysOf
      rw [tableNames_setTable]
      simpa [keysOf, load_database, loadStore] using hmem1)
    (selectLockPid_insert_of_none _ _ _ _ hlock)]
  dsimp only [unlockRemove, save_locks, updateMeta]
  rw [if_pos (by simp [hmeta])]
  rw [getInsertStack_updateMeta _ _ _ _ hstack]

/-- Full evaluation of `insert_into` on an unlocked user table whose insert
stack is non-empty and whose row passes the schema and constraint checks:
the row overwrites the tombstone at the top of the stack (no append) and
the used position is popped from the persisted stack. -/
theorem insert_into_eval {V : Type} [DecidableEq V] (s : DBState V)
    (pid : Nat) (t : String) (row : Row V) (tb : Table V)
    (st : List Nat) (d : Nat) (hmeta : isMeta t = false)
    (ht : lookupTable (mergeTables s.memory.userTables
        s.persisted.userTables) t = some tb)
    (hstack : getInsertStack s.persisted.meta_insert_stack t = some st)
    (hlock : selectLockPid s.persisted.meta_locks t = none)
    (harity : row.length = tb.column_names.length)
    (hdup : (keyCols tb).any
      (fun ci => colDup tb ci (row.getD ci none)) = false)
    (hlast : st.getLast? = some d) :
    insert_into s pid t row =
      (let U1 := setTable (mergeTables s.memory.userTables
          s.persisted.userTables) t { tb with data := tb.data.set d row }
       let M : Store V :=
        { userTables := U1
          meta_length := updateMetaLength U1 s.persisted.meta_length
          meta_locks := deleteLocksFor
            (insertLock s.persisted.meta_locks t pid "x") t
          meta_insert_stack := updateMetaInsertStack U1
            (setInsertStack s.persisted.meta_insert_stack t st.dropLast)
          meta_indexes := s.persisted.meta_indexes }
       (⟨M, M, s.savedIndexes⟩, .ok ())) := by
  have hmem1 : t ∈ keysOf (load_database s).memory := by
    unfold keysOf
    exact List.mem_append_left _
      (mem_tableNames_of_lookup _ _ _ (by
        simpa [load_database, loadStore] using ht))
  have hl1 := lock_table_free (load_database s) pid t hmeta hmem1 hlock
  unfold insert_into
  dsimp only
  rw [hl1]
  dsimp only [load_database, loadStore, save_locks, save_database]
  rw [hstack]
  dsimp only
  rw [ht]
  dsimp only [tableInsert]
  rw [if_neg (by simp [harity])]
  rw [if_neg (show ¬ ((keyCols tb).any
    fun ci => colDup tb ci (List.getD row ci none)) = true by
      rw [hdup]; simp)]
  rw [hlast]
  dsimp only
  rw [if_pos (show (some true == some true) = true from rfl)]
  rw [unlock_table_owner _ pid t
    (by
      unfold keysOf
      rw [tableNames_setTable]
      simpa [keysOf, load_database, loadStore] using hmem1)
    (selectLockPid_insert_of_none _ _ _ _ hlock)]
  dsimp only [unlockRemove, save_locks, updateMeta]

/-- C7: on any non-meta table (unlocked, with insert stack `st`), deleting
rows tombstones exactly the matching rows and appends their positions to the
persisted free-position stack; and the next insert of a valid row reuses the
freed position at the top of the stack — `d` is one of the freed positions,
the stored table is the tombstoned table with the row written *at* position
`d`, the row count does not grow (no append), and `d` is popped from the
persisted stack. -/
theorem delete_then_insert_reuses_slot {V : Type} [DecidableEq V]
    (s : DBState V) (pid : Nat) (t : String) (pred : Row V → Bool)
    (tb : Table V) (st : List Nat) (hmeta : isMeta t = false)
    (ht : lookupTable (mergeTables s.memory.userTables
        s.persisted.userTables) t = some tb)
    (hstack : getInsertStack s.persisted.meta_insert_stack t = some st)
    (hlock : selectLockPid s.persisted.meta_locks t = none) :
    (delete_from s pid t pred).2 = .ok () ∧
    getInsertStack (delete_from s pid t pred).1.persisted.meta_insert_stack t
      = some (st ++ (tableDeleteWhere tb pred).2) ∧
    lookupTable (delete_from s pid t pred).1.persisted.userTables t
      = some (tableDeleteWhere tb pred).1 ∧
    (∀ row d,
      row.length = (tableDeleteWhere tb pred).1.column_names.length →
      ((keyCols (tableDeleteWhere tb pred).1).any (fun ci =>
        colDup (tableDeleteWhere tb pred).1 ci (row.getD ci none))) = false →
      (tableDeleteWhere tb pred).2.getLast? = some d →
      d ∈ (tableDeleteWhere tb pred).2 ∧
      (insert_into (delete_from s pid t pred).1 pid t row).2 = .ok () ∧
      lookupTable (insert_into (delete_from s pid t pred).1 pid t
          row).1.persisted.userTables t
        = some { (tableDeleteWhere tb pred).1 with
            data := (tableDeleteWhere tb pred).1.data.set d row } ∧
      ((tableDeleteWhere tb pred).1.data.set d row).length
        = tb.data.length ∧
      getInsertStack (insert_into (delete_from s pid t pred).1 pid t
          row).1.persisted.meta_insert_stack t
        = some ((st ++ (tableDeleteWhere tb pred).2).dropLast)) := by
  have hdel := delete_from_eval s pid t pred tb st hmeta ht hstack hlock
  have hU1 : lookupTable (setTable (mergeTables s.memory.userTables
      s.persisted.userTables) t (tableDeleteWhere tb pred).1) t
      = some (tableDeleteWhere tb pred).1 :=
    lookupTable_setTable _ _ _ _ ht
  have hstk1 : getInsertStack
      (setInsertStack (updateMetaInsertStack (setTable (mergeTables
        s.memory.userTables s.persisted.userTables) t
        (tableDeleteWhere tb pred).1) s.persisted.meta_insert_stack) t
        (st ++ (tableDeleteWhere tb pred).2)) t
      = some (st ++ (tableDeleteWhere tb pred).2) :=
    getInsertStack_set _ _ _ _ (getInsertStack_updateMeta _ _ _ _ hstack)
  refine ⟨by rw [hdel], ?_, ?_, ?_⟩
  · rw [hdel]
    exact hstk1
  · rw [hdel]
    exact hU1
  · intro row d har hdup hd
    have hdD : d ∈ (tableDeleteWhere tb pred).2 := by
      have hmem : d ∈ ((tableDeleteWhere tb pred).2).getLast? := by
        rw [hd]; rfl
      obtain ⟨hne, hdeq⟩ := List.mem_getLast?_eq_getLast hmem
      exact hdeq ▸ List.getLast_mem hne
    have hins := insert_into_eval (delete_from s pid t pred).1 pid t row
      (tableDeleteWhere tb pred).1 (st ++ (tableDeleteWhere tb pred).2) d
      hmeta
      (by rw [hdel]
          exact lookupTable_mergeTables _ _ _ _ _ hU1 hU1)
      (by rw [hdel]
          exact hstk1)
      (by rw [hdel]
          exact selectLockPid_deleteLocksFor _ _)
      har hdup
      (by rw [List.getLast?_append, hd]; rfl)
    refine ⟨hdD, by rw [hins], ?_, ?_, ?_⟩
    · rw [hins]
      dsimp only
      rw [hdel]
      dsimp only
      exact lookupTable_setTable _ _ _ _
        (lookupTable_mergeTables _ _ _ _ _ hU1 hU1)
    · rw [List.length_set]
      simp [tableDeleteWhere]
    · rw [hins]
      dsimp only
      rw [hdel]
      dsimp only
      exact getInsertStack_updateMeta _ _ _ _
        (getInsertStack_set _ _ _ _ hstk1)

/-- C7, witness: on `db0` (table at positions [0]=(1,10), [1]=(2,20), empty
stack, unlocked), deleting `id=1` frees position 0 and inserting `(3,30)`
succeeds by reusing it. -/
theorem delete_then_insert_reuses_slot_wit :
    (delete_from db0 1 "emp" (fun r => r.getD 0 none == some 1)).2
      = Except.ok () ∧
    (0 : Nat) ∈ (tableDeleteWhere empT
      (fun r => r.getD 0 none == some 1)).2 ∧
    (insert_into (delete_from db0 1 "emp"
        (fun r => r.getD 0 none == some 1)).1 1 "emp"
        ([some 3, some 30] : Row Nat)).2 = Except.ok () := by
  have h := delete_then_insert_reuses_slot db0 1 "emp"
    (fun r => r.getD 0 none == some 1) empT [] (by decide) rfl rfl rfl
  exact ⟨h.1, (h.2.2.2 [some 3, some 30] 0 rfl rfl rfl).1,
    (h.2.2.2 [some 3, some 30] 0 rfl rfl rfl).2.1⟩

end MiniDB
